import Mathlib

/-!
# Hazel event core: kind tags, category flags, `Event`, `EventDispatcher`

A shallow embedding of `Hazel/Core.h` (the `BIT` macro) and
`Hazel/Events/Event.h` (the two enumerations, the two class-declaring
macros, the abstract `Event` and `EventDispatcher::Dispatch`).

Modelling conventions.

* `Event` is abstract: its pure virtuals are implemented in a concrete
  class by the macros `EVENT_CLASS_TYPE(type)` and
  `EVENT_CLASS_CATEGORY(category)`.  A concrete class is therefore described
  by its RTTI identity, the two macro arguments and an optional `ToString`
  override; a virtual call on an instance runs the macro-generated body of
  the instance's dynamic class.
* A C++ `int` is an `Int`; `<<` is the shift of `Int`, `&` is `Int.land` (both
  agree with the two's complement operations on every value that fits an
  `int`), the conversion `int -> bool` is `≠ 0`.
* A handler (`std::function<bool(T&)>`) is a closure: it receives the event
  by reference, may write the event's data members and its captured
  surroundings (a world of type `W`), and returns a `bool`.  It cannot change
  the dynamic class of the object it is given.
-/

namespace Hazel

/-! ## `Hazel/Core.h` -/

/-- `#define BIT(x) (1 << x)`. -/
def BIT (x : Nat) : Int := (1 : Int) <<< (x : Int)

/-! ## `Hazel/Events/Event.h`: the enumerations -/

/-- `enum class EventType`, enumerators in declaration order. -/
inductive EventType where
  | None
  | WindowClose | WindowResize | WindowFocus | WindowLostFocus | WindowMoved
  | AppTick | AppUpdate | AppRender
  | KeyPressed | KeyReleased
  | MouseButtonPressed | MouseButtonReleased | MouseMoved | MouseScrolled
  deriving DecidableEq, Repr

/-- The integer value of an `EventType` enumerator: `None = 0`, the others
count up from it in declaration order. -/
def EventType.toNat : EventType → Nat
  | .None => 0
  | .WindowClose => 1 | .WindowResize => 2 | .WindowFocus => 3
  | .WindowLostFocus => 4 | .WindowMoved => 5
  | .AppTick => 6 | .AppUpdate => 7 | .AppRender => 8
  | .KeyPressed => 9 | .KeyReleased => 10
  | .MouseButtonPressed => 11 | .MouseButtonReleased => 12
  | .MouseMoved => 13 | .MouseScrolled => 14

/-- The enumerators of `EventType`, in declaration order. -/
def EventType.all : List EventType :=
  [.None, .WindowClose, .WindowResize, .WindowFocus, .WindowLostFocus, .WindowMoved,
   .AppTick, .AppUpdate, .AppRender, .KeyPressed, .KeyReleased,
   .MouseButtonPressed, .MouseButtonReleased, .MouseMoved, .MouseScrolled]

/-- The preprocessor stringification `#type` of an enumerator name, as used by
`EVENT_CLASS_TYPE`. -/
def EventType.spelling : EventType → String
  | .None => "None"
  | .WindowClose => "WindowClose" | .WindowResize => "WindowResize"
  | .WindowFocus => "WindowFocus" | .WindowLostFocus => "WindowLostFocus"
  | .WindowMoved => "WindowMoved"
  | .AppTick => "AppTick" | .AppUpdate => "AppUpdate" | .AppRender => "AppRender"
  | .KeyPressed => "KeyPressed" | .KeyReleased => "KeyReleased"
  | .MouseButtonPressed => "MouseButtonPressed"
  | .MouseButtonReleased => "MouseButtonReleased"
  | .MouseMoved => "MouseMoved" | .MouseScrolled => "MouseScrolled"

/-- `enum EventCategory` (unscoped). -/
inductive EventCategory where
  | None
  | EventCategoryApplication
  | EventCategoryInput
  | EventCategoryKeyboard
  | EventCategoryMouse
  | EventCategoryMouseButton
  deriving DecidableEq, Repr

/-- The value each `EventCategory` enumerator is initialised with. -/
def EventCategory.val : EventCategory → Int
  | .None => 0
  | .EventCategoryApplication => BIT 0
  | .EventCategoryInput => BIT 1
  | .EventCategoryKeyboard => BIT 2
  | .EventCategoryMouse => BIT 3
  | .EventCategoryMouseButton => BIT 4

/-- The five named categories (every enumerator but `None`). -/
def EventCategory.named : List EventCategory :=
  [.EventCategoryApplication, .EventCategoryInput, .EventCategoryKeyboard,
   .EventCategoryMouse, .EventCategoryMouseButton]

/-! ## `Event` -/

/-- The data members of an event instance: `Event::Handled` (default `false`)
and the members `P` its concrete class adds. -/
structure EventData (P : Type) where
  Handled : Bool := false
  payload : P

/-- A concrete class derived from `Event`.
`name` and `bases` are its run-time type information: its own identity and the
classes it derives from publicly, the targets a `dynamic_cast` of one of its
instances reaches.  `type` is the argument of its `EVENT_CLASS_TYPE`,
`category` that of its `EVENT_CLASS_CATEGORY`; `toStringOverride` is its
override of the virtual `ToString`, when it has one. -/
structure EventClass (P : Type) where
  name : String
  bases : List String := []
  type : EventType
  category : Int
  toStringOverride : Option (EventData P → String) := none

/-- An event instance: an object with its dynamic class and data members. -/
structure Event (P : Type) where
  cls : EventClass P
  data : EventData P

/-- The three functions `EVENT_CLASS_TYPE(type)` declares in a class. -/
structure EventClassType (P : Type) where
  GetStaticType : EventType
  GetEventType : EventData P → EventType
  GetName : EventData P → String

/-- The macro `EVENT_CLASS_TYPE(type)`:
`static EventType GetStaticType() { return EventType::##type; }`,
`virtual EventType GetEventType() const override { return GetStaticType(); }`,
`virtual const char* GetName() const override { return #type; }`. -/
def EVENT_CLASS_TYPE {P : Type} (type : EventType) : EventClassType P :=
  let GetStaticType : EventType := type
  { GetStaticType := GetStaticType
    GetEventType := fun _this => GetStaticType
    GetName := fun _this => type.spelling }

/-- The macro `EVENT_CLASS_CATEGORY(category)`:
`virtual int GetCategoryFlags() const override { return category; }`. -/
def EVENT_CLASS_CATEGORY {P : Type} (category : Int) : EventData P → Int :=
  fun _this => category

/-- `T::GetStaticType()`, queried on the class, without an instance. -/
def GetStaticType {P : Type} (T : EventClass P) : EventType :=
  (EVENT_CLASS_TYPE T.type : EventClassType P).GetStaticType

/-- The virtual call `e.GetEventType()`. -/
def GetEventType {P : Type} (e : Event P) : EventType :=
  (EVENT_CLASS_TYPE e.cls.type : EventClassType P).GetEventType e.data

/-- The virtual call `e.GetName()`. -/
def GetName {P : Type} (e : Event P) : String :=
  (EVENT_CLASS_TYPE e.cls.type : EventClassType P).GetName e.data

/-- The virtual call `e.GetCategoryFlags()`. -/
def GetCategoryFlags {P : Type} (e : Event P) : Int :=
  EVENT_CLASS_CATEGORY e.cls.category e.data

/-- The virtual call `e.ToString()`: the override of the dynamic class when it
has one, else `Event::ToString`, which is `return GetName();`. -/
def ToString {P : Type} (e : Event P) : String :=
  match e.cls.toStringOverride with
  | some f => f e.data
  | none => GetName e

/-- The implicit conversion of an `int` to `bool`. -/
def intToBool (n : Int) : Bool := n != 0

/-- `Event::IsInCategory`: `return GetCategoryFlags() & category;`.  The
argument is the integer value of the `EventCategory` passed, which is an
enumerator or a combination of enumerators cast to the enumeration. -/
def IsInCategory {P : Type} (e : Event P) (category : Int) : Bool :=
  intToBool (Int.land (GetCategoryFlags e) category)

/-! ## `EventDispatcher` -/

/-- What a call of a handler leaves behind: its return value, the data
members of the event it was given and its captured surroundings. -/
structure HandlerResult (P W : Type) where
  ret : Bool
  data : EventData P
  world : W

/-- `EventFn<T>`, that is `std::function<bool(T&)>`. -/
abbrev EventFn (P W : Type) := Event P → W → HandlerResult P W

/-- `EventDispatcher`: its one member is the reference `m_Event`. -/
structure EventDispatcher (P : Type) where
  m_Event : Event P

/-- `dynamic_cast<T*>(&e)`: the object itself when its dynamic class is `T` or
derives from `T`, otherwise the null pointer. -/
def dynamic_cast {P : Type} (T : EventClass P) (e : Event P) : Option (Event P) :=
  if T.name = e.cls.name ∨ T.name ∈ e.cls.bases then some e else none

/-- The outcome of `Dispatch`: the returned `bool`, the dispatcher (with the
event it refers to) and the surroundings of the handler after the call. -/
structure DispatchResult (P W : Type) where
  ret : Bool
  dispatcher : EventDispatcher P
  world : W

/-- `EventDispatcher::Dispatch<T>(func)`. -/
def EventDispatcher.Dispatch {P W : Type} (self : EventDispatcher P) (T : EventClass P)
    (func : EventFn P W) (w : W) : DispatchResult P W :=
  if GetEventType self.m_Event = GetStaticType T then
    match dynamic_cast T self.m_Event with
    | some casted_event =>
      let r := func casted_event w
      { ret := true
        dispatcher := { m_Event := { cls := self.m_Event.cls
                                     data := { r.data with Handled := r.ret } } }
        world := r.world }
    | none => { ret := false, dispatcher := self, world := w }
  else
    { ret := false, dispatcher := self, world := w }

/-! ## Observing handler calls -/

/-- A handler wrapped so that each call is recorded: the wrapped handler does
what `func` does and appends the event it was called with to a log kept next to
the surroundings of `func`.  Running `Dispatch` with a traced handler on an
empty log yields the list of handler invocations of that `Dispatch`. -/
def traced {P W : Type} (func : EventFn P W) : EventFn P (W × List (Event P)) :=
  fun e s =>
    let r := func e s.1
    { ret := r.ret, data := r.data, world := (r.world, s.2 ++ [e]) }

/-- The handler invocations of `Dispatch<T>(func)` on the event `e`, in order. -/
def invocations {P W : Type} (e : Event P) (T : EventClass P) (func : EventFn P W)
    (w : W) : List (Event P) :=
  (EventDispatcher.Dispatch { m_Event := e } T (traced func) (w, [])).world.2

/-! ## Concrete variants used in the scenarios -/

/-- Modelled from the spec: the data members concrete variants add to `Event`
(the concrete event classes are not part of the sources at hand): a key code
for key events, cursor coordinates for mouse-move events, nothing for the
others. -/
inductive Payload where
  | keyCode (code : Int)
  | cursor (x y : Int)
  | empty
  deriving DecidableEq, Repr

/-- Modelled from the spec: the class `KeyPressedEvent`, declared with
`EVENT_CLASS_TYPE(KeyPressed)` and a category mask that includes the keyboard
category. -/
def KeyPressedEvent : EventClass Payload :=
  { name := "KeyPressedEvent"
    type := .KeyPressed
    category := Int.lor EventCategory.EventCategoryKeyboard.val
                  EventCategory.EventCategoryInput.val }

/-- Modelled from the spec: the class `MouseMovedEvent`, declared with
`EVENT_CLASS_TYPE(MouseMoved)`. -/
def MouseMovedEvent : EventClass Payload :=
  { name := "MouseMovedEvent"
    type := .MouseMoved
    category := Int.lor EventCategory.EventCategoryMouse.val
                  EventCategory.EventCategoryInput.val }

/-- Modelled from the spec: the class `WindowCloseEvent`, declared with
`EVENT_CLASS_TYPE(WindowClose)`, in the application category, without a
`ToString` override. -/
def WindowCloseEvent : EventClass Payload :=
  { name := "WindowCloseEvent"
    type := .WindowClose
    category := EventCategory.EventCategoryApplication.val }

/-- A class that is not `KeyPressedEvent` and does not derive from it, yet
declares `EVENT_CLASS_TYPE(KeyPressed)`: its instances carry the kind tag of
`KeyPressedEvent` without being one. -/
def KeyPressedLookalike : EventClass Payload :=
  { name := "KeyPressedLookalike"
    type := .KeyPressed
    category := EventCategory.EventCategoryKeyboard.val }

/-- A freshly constructed `KeyPressedEvent` with key code 65. -/
def keyPressed65 : Event Payload :=
  { cls := KeyPressedEvent, data := { payload := .keyCode 65 } }

/-- A freshly constructed `WindowCloseEvent`. -/
def windowClose : Event Payload :=
  { cls := WindowCloseEvent, data := { payload := .empty } }

/-- A freshly constructed instance of `KeyPressedLookalike`. -/
def lookalike : Event Payload :=
  { cls := KeyPressedLookalike, data := { payload := .keyCode 65 } }

/-- The key code a handler reads from the event it is given (0 when the event
carries none). -/
def keyCodeOf (e : Event Payload) : Int :=
  match e.data.payload with
  | .keyCode code => code
  | _ => 0

/-- A handler that notes the key code it observes in its surroundings, leaves
the event as it is and returns `true`. -/
def consumeKey : EventFn Payload (List Int) :=
  fun e seen => { ret := true, data := e.data, world := seen ++ [keyCodeOf e] }

/-- A handler that counts its calls, leaves the event as it is and returns
`false`. -/
def declineCounting : EventFn Payload Nat :=
  fun e n => { ret := false, data := e.data, world := n + 1 }

/-! ## Construction and rounds of dispatch attempts -/

/-- Construction of an instance of the concrete class `cls` with the payload
`p`: the default member initializer `bool Handled = false;` of `Event`
applies. -/
def construct {P : Type} (cls : EventClass P) (p : P) : Event P :=
  { cls := cls, data := { payload := p } }

/-- One dispatch attempt of a caller: the type argument `T` and the handler of a
call `dispatcher.Dispatch<T>(func)`. -/
structure DispatchCall (P W : Type) where
  T : EventClass P
  func : EventFn P W

/-- A round of dispatch attempts on one dispatcher: the calls
`dispatcher.Dispatch<T>(func)` of the list are issued one after the other, in
the order of the list, each on the event and the surroundings the previous one
left. -/
def dispatchAll {P W : Type} (d : EventDispatcher P) (calls : List (DispatchCall P W))
    (w : W) : EventDispatcher P × W :=
  match calls with
  | [] => (d, w)
  | c :: rest =>
    let r := d.Dispatch c.T c.func w
    dispatchAll r.dispatcher rest r.world

/-- Whether `Dispatch<T>` reaches the call of its handler on the event `e`: the
kind tags are equal and the checked downcast does not yield the null pointer
(both `if`s of `Dispatch` are taken). -/
def kindMatches {P : Type} (e : Event P) (T : EventClass P) : Bool :=
  decide (GetEventType e = GetStaticType T) && (dynamic_cast T e).isSome

/-- A handler wrapped so that the value it returns is recorded: the wrapped
handler does what `func` does and appends the returned `bool` to a log kept
next to the surroundings of `func`. -/
def returnTraced {P W : Type} (func : EventFn P W) : EventFn P (W × List Bool) :=
  fun e s =>
    let r := func e s.1
    { ret := r.ret, data := r.data, world := (r.world, s.2 ++ [r.ret]) }

/-- The values returned by the handlers a round of dispatch attempts invokes,
in the order of the invocations. -/
def handlerReturns {P W : Type} (e : Event P) (calls : List (DispatchCall P W)) (w : W) :
    List Bool :=
  (dispatchAll { m_Event := e }
    (calls.map fun c => { T := c.T, func := returnTraced c.func }) (w, [])).2.2

/-! ## `operator<<` -/

/-- An output stream (`std::ostream`): the stream object it is, named by
`handle`, the characters written to it so far, and the part of its state the
insertion of a string reads: whether the stream is good (`os.good()`, no error
bit set), its field width (`os.width()`), its fill character (`os.fill()`) and
whether its adjustment is `left`
(`(os.flags() & ios_base::adjustfield) == ios_base::left`).  The defaults are
those of a newly opened stream. -/
structure ostream where
  handle : Nat
  written : String
  good : Bool := true
  width : Nat := 0
  fill : Char := ' '
  adjustLeft : Bool := false

/-- The fill characters a field of width `width` needs around a text of
`len` characters: `width - len` of them, none when the text is as long as the
width or longer. -/
def ostream.padding (os : ostream) (len : Nat) : String :=
  String.mk (List.replicate (os.width - len) os.fill)

/-- The insertion of a `std::string` into a stream, `os << s`, of the standard
library, a formatted output function.  On a stream that is not good the sentry
fails and nothing is written.  Otherwise the characters of `s` are written,
padded with the fill character to the field width when `s` is shorter than it
(after `s` for the adjustment `left`, before `s` otherwise), and the field
width is reset to 0.  The stream itself is returned. -/
def ostream.insert (os : ostream) (s : String) : ostream :=
  if os.good then
    let seq := if os.adjustLeft then s ++ os.padding s.length else os.padding s.length ++ s
    { os with written := os.written ++ seq, width := 0 }
  else
    os

/-- `operator<<(std::ostream& os, const Event& e)`: `return os << e.ToString();`. -/
def operatorInsert {P : Type} (os : ostream) (e : Event P) : ostream :=
  os.insert (ToString e)

/-! ## More handlers and classes for the scenarios -/

/-- A handler that writes `Handled = true` through the reference it is given,
notes the key code it observes and returns `false`. -/
def markThenDecline : EventFn Payload (List Int) :=
  fun e seen =>
    { ret := false
      data := { e.data with Handled := true }
      world := seen ++ [keyCodeOf e] }

/-- A class with an override of `ToString` that prints the key code carried. -/
def KeyReleasedVerbose : EventClass Payload :=
  { name := "KeyReleasedVerbose"
    type := .KeyReleased
    category := EventCategory.EventCategoryKeyboard.val
    toStringOverride := some fun d =>
      match d.payload with
      | .keyCode code => "KeyReleased: " ++ toString code
      | _ => "KeyReleased" }

end Hazel

/-! # Theorems -/

namespace Hazel

variable {P W : Type}

/-! ## Unfolding `Dispatch` along its three paths -/

/-- A successful `dynamic_cast` yields the object it was applied to. -/
theorem dynamic_cast_isSome_eq (T : EventClass P) (e : Event P)
    (hcast : (dynamic_cast T e).isSome = true) : dynamic_cast T e = some e := by
  unfold dynamic_cast at hcast ⊢
  split
  · rfl
  · rename_i hno
    simp [hno] at hcast

/-- The path through the assignment `m_Event.Handled = func(*casted_event)`. -/
theorem Dispatch_of_match (e : Event P) (T : EventClass P) (func : EventFn P W) (w : W)
    (hkind : GetEventType e = GetStaticType T)
    (hcast : (dynamic_cast T e).isSome = true) :
    EventDispatcher.Dispatch { m_Event := e } T func w =
      { ret := true
        dispatcher :=
          { m_Event :=
              { cls := e.cls
                data := { (func e w).data with Handled := (func e w).ret } } }
        world := (func e w).world } := by
  simp [EventDispatcher.Dispatch, hkind, dynamic_cast_isSome_eq T e hcast]

/-- The path that skips the outer `if`. -/
theorem Dispatch_of_mismatch (e : Event P) (T : EventClass P) (func : EventFn P W) (w : W)
    (hkind : GetEventType e ≠ GetStaticType T) :
    EventDispatcher.Dispatch { m_Event := e } T func w =
      { ret := false, dispatcher := { m_Event := e }, world := w } := by
  simp [EventDispatcher.Dispatch, hkind]

/-- The path on which `casted_event` is the null pointer. -/
theorem Dispatch_of_null_cast (e : Event P) (T : EventClass P) (func : EventFn P W) (w : W)
    (hcast : dynamic_cast T e = none) :
    EventDispatcher.Dispatch { m_Event := e } T func w =
      { ret := false, dispatcher := { m_Event := e }, world := w } := by
  unfold EventDispatcher.Dispatch
  split
  · simp [hcast]
  · rfl

/-- On the matching path the handler is called once, with the bound event. -/
theorem invocations_of_match (e : Event P) (T : EventClass P) (func : EventFn P W) (w : W)
    (hkind : GetEventType e = GetStaticType T)
    (hcast : (dynamic_cast T e).isSome = true) :
    invocations e T func w = [e] := by
  simp [invocations, Dispatch_of_match e T (traced func) (w, []) hkind hcast, traced]

/-- Off the matching path the handler is not called. -/
theorem invocations_of_no_match (e : Event P) (T : EventClass P) (func : EventFn P W) (w : W)
    (hno : GetEventType e ≠ GetStaticType T ∨ dynamic_cast T e = none) :
    invocations e T func w = [] := by
  rcases hno with hkind | hcast
  · simp [invocations, Dispatch_of_mismatch e T (traced func) (w, []) hkind]
  · simp [invocations, Dispatch_of_null_cast e T (traced func) (w, []) hcast]

/-- Tracing a handler is transparent: the traced `Dispatch` returns the same
value, leaves the same event and the same surroundings as the plain one. -/
theorem Dispatch_traced (e : Event P) (T : EventClass P) (func : EventFn P W) (w : W)
    (log : List (Event P)) :
    let plain := EventDispatcher.Dispatch { m_Event := e } T func w
    let obs := EventDispatcher.Dispatch { m_Event := e } T (traced func) (w, log)
    obs.ret = plain.ret ∧ obs.dispatcher = plain.dispatcher ∧ obs.world.1 = plain.world := by
  unfold EventDispatcher.Dispatch
  split
  · cases dynamic_cast T e <;> simp [traced]
  · simp

/-- The value `Dispatch` returns is decided by the dynamic class of the bound
event alone: its kind tag and whether it is a `T`. -/
theorem Dispatch_ret_eq (e : Event P) (T : EventClass P) (func : EventFn P W) (w : W) :
    (EventDispatcher.Dispatch { m_Event := e } T func w).ret =
      (decide (e.cls.type = T.type) &&
        decide (T.name = e.cls.name ∨ T.name ∈ e.cls.bases)) := by
  by_cases hkind : GetEventType e = GetStaticType T
  · have ht : e.cls.type = T.type := hkind
    cases hcast : dynamic_cast T e with
    | none =>
      rw [Dispatch_of_null_cast e T func w hcast]
      have hno : ¬ (T.name = e.cls.name ∨ T.name ∈ e.cls.bases) := by
        intro hyes
        simp [dynamic_cast, hyes] at hcast
      simp [hno]
    | some x =>
      have hsome : (dynamic_cast T e).isSome = true := by simp [hcast]
      rw [Dispatch_of_match e T func w hkind hsome]
      have hyes : T.name = e.cls.name ∨ T.name ∈ e.cls.bases := by
        by_contra hno
        simp [dynamic_cast, hno] at hcast
      simp [ht, hyes]
  · have ht : ¬ e.cls.type = T.type := hkind
    rw [Dispatch_of_mismatch e T func w hkind]
    simp [ht]

/-- A `Dispatch` makes one handler invocation when it returns `true`, none when
it returns `false`. -/
theorem invocations_length (e : Event P) (T : EventClass P) (func : EventFn P W) (w : W) :
    (invocations e T func w).length =
      if (EventDispatcher.Dispatch { m_Event := e } T func w).ret = true then 1 else 0 := by
  by_cases hkind : GetEventType e = GetStaticType T
  · cases hcast : dynamic_cast T e with
    | none =>
      rw [Dispatch_of_null_cast e T func w hcast,
        invocations_of_no_match e T func w (Or.inr hcast)]
      simp
    | some x =>
      have hsome : (dynamic_cast T e).isSome = true := by simp [hcast]
      rw [Dispatch_of_match e T func w hkind hsome,
        invocations_of_match e T func w hkind hsome]
      simp
  · rw [Dispatch_of_mismatch e T func w hkind,
      invocations_of_no_match e T func w (Or.inl hkind)]
    simp

/-- The dynamic class of the bound event is the same after `Dispatch`. -/
theorem Dispatch_cls (e : Event P) (T : EventClass P) (func : EventFn P W) (w : W) :
    (EventDispatcher.Dispatch { m_Event := e } T func w).dispatcher.m_Event.cls = e.cls := by
  unfold EventDispatcher.Dispatch
  split
  · cases dynamic_cast T e <;> rfl
  · rfl

/-! ## C1 – C4: `Dispatch` -/

/-- C1: when the bound event's kind tag equals `T`'s static tag and the event
really is a `T`, `Dispatch<T>(h)` is one run of `h` on the bound event itself:
`h` is invoked exactly once, with that event as its argument, whatever
`Handled` was before; afterwards `Handled` is the boolean `h` returned, the
other data members and the surroundings are as `h` left them, and the call
returns `true`. -/
theorem Dispatch_match_runs_handler_once (e : Event P) (T : EventClass P)
    (h : EventFn P W) (w : W)
    (hkind : GetEventType e = GetStaticType T)
    (hcast : (dynamic_cast T e).isSome = true) :
    invocations e T h w = [e] ∧
    (EventDispatcher.Dispatch { m_Event := e } T h w).dispatcher.m_Event.data.Handled
      = (h e w).ret ∧
    EventDispatcher.Dispatch { m_Event := e } T h w =
      { ret := true
        dispatcher :=
          { m_Event :=
              { cls := e.cls
                data := { (h e w).data with Handled := (h e w).ret } } }
        world := (h e w).world } := by
  refine ⟨invocations_of_match e T h w hkind hcast, ?_, Dispatch_of_match e T h w hkind hcast⟩
  rw [Dispatch_of_match e T h w hkind hcast]

/-- Witness for C1, the scenario of the spec: a `KeyPressedEvent` with key code
65 dispatched to a handler that returns `true` and notes the key code it sees. -/
theorem Dispatch_match_runs_handler_once_witness :
    GetEventType keyPressed65 = GetStaticType KeyPressedEvent ∧
    (dynamic_cast KeyPressedEvent keyPressed65).isSome = true ∧
    (consumeKey keyPressed65 []).ret = true ∧
    (consumeKey keyPressed65 []).world = [65] ∧
    (invocations keyPressed65 KeyPressedEvent consumeKey [] = [keyPressed65] ∧
     (EventDispatcher.Dispatch { m_Event := keyPressed65 } KeyPressedEvent consumeKey
        []).dispatcher.m_Event.data.Handled = (consumeKey keyPressed65 []).ret ∧
     EventDispatcher.Dispatch { m_Event := keyPressed65 } KeyPressedEvent consumeKey [] =
      { ret := true
        dispatcher :=
          { m_Event :=
              { cls := keyPressed65.cls
                data := { (consumeKey keyPressed65 []).data with
                          Handled := (consumeKey keyPressed65 []).ret } } }
        world := (consumeKey keyPressed65 []).world }) :=
  ⟨by decide, by decide, rfl, by decide,
   Dispatch_match_runs_handler_once keyPressed65 KeyPressedEvent consumeKey []
     (by decide) (by decide)⟩

/-- C2: for an event of kind `T` and a class `U` whose static kind tag differs
from `T`'s, `Dispatch<U>(h)` returns `false`, never invokes `h` and leaves the
event, `Handled` included, and the surroundings of `h` as they were. -/
theorem Dispatch_other_kind_skips_handler (e : Event P) (T U : EventClass P)
    (h : EventFn P W) (w : W)
    (hT : GetEventType e = GetStaticType T)
    (hU : GetStaticType U ≠ GetStaticType T) :
    (EventDispatcher.Dispatch { m_Event := e } U h w).ret = false ∧
    invocations e U h w = [] ∧
    (EventDispatcher.Dispatch { m_Event := e } U h w).dispatcher.m_Event.data.Handled
      = e.data.Handled ∧
    EventDispatcher.Dispatch { m_Event := e } U h w =
      { ret := false, dispatcher := { m_Event := e }, world := w } := by
  have hkind : GetEventType e ≠ GetStaticType U := fun heq => hU (heq ▸ hT)
  refine ⟨?_, invocations_of_no_match e U h w (Or.inl hkind), ?_,
    Dispatch_of_mismatch e U h w hkind⟩ <;>
  rw [Dispatch_of_mismatch e U h w hkind]

/-- Witness for C2, the scenario of the spec: `Dispatch<MouseMovedEvent>`
against the `KeyPressedEvent` with key code 65. -/
theorem Dispatch_other_kind_skips_handler_witness :
    GetEventType keyPressed65 = GetStaticType KeyPressedEvent ∧
    GetStaticType MouseMovedEvent ≠ GetStaticType KeyPressedEvent ∧
    ((EventDispatcher.Dispatch { m_Event := keyPressed65 } MouseMovedEvent consumeKey
        []).ret = false ∧
     invocations keyPressed65 MouseMovedEvent consumeKey [] = [] ∧
     (EventDispatcher.Dispatch { m_Event := keyPressed65 } MouseMovedEvent consumeKey
        []).dispatcher.m_Event.data.Handled = keyPressed65.data.Handled ∧
     EventDispatcher.Dispatch { m_Event := keyPressed65 } MouseMovedEvent consumeKey [] =
      { ret := false, dispatcher := { m_Event := keyPressed65 }, world := [] }) :=
  ⟨by decide, by decide,
   Dispatch_other_kind_skips_handler keyPressed65 KeyPressedEvent MouseMovedEvent consumeKey []
     (by decide) (by decide)⟩

/-- C3: what `Dispatch<T>(h)` returns does not depend on what `h` returns.  On
a matching kind tag with a successful downcast it returns `true` for every
handler, whether that handler returns `true` or `false`; on a kind tag that
does not match it returns `false`; and in every case it returns `true` exactly
when the handler was invoked. -/
theorem Dispatch_return_independent_of_handler (e : Event P) (T : EventClass P)
    (h : EventFn P W) (w : W) :
    (GetEventType e = GetStaticType T → (dynamic_cast T e).isSome = true →
      ∀ (b : Bool) (g : EventFn P W), (g e w).ret = b →
        (EventDispatcher.Dispatch { m_Event := e } T g w).ret = true) ∧
    (GetEventType e ≠ GetStaticType T →
      (EventDispatcher.Dispatch { m_Event := e } T h w).ret = false) ∧
    ((EventDispatcher.Dispatch { m_Event := e } T h w).ret = true ↔
      invocations e T h w ≠ []) := by
  refine ⟨?_, ?_, ?_⟩
  · intro hkind hcast b g _
    rw [Dispatch_of_match e T g w hkind hcast]
  · intro hkind
    rw [Dispatch_of_mismatch e T h w hkind]
  · by_cases hkind : GetEventType e = GetStaticType T
    · cases hcast : dynamic_cast T e with
      | none =>
        rw [Dispatch_of_null_cast e T h w hcast,
          invocations_of_no_match e T h w (Or.inr hcast)]
        simp
      | some x =>
        have hsome : (dynamic_cast T e).isSome = true := by simp [hcast]
        rw [Dispatch_of_match e T h w hkind hsome, invocations_of_match e T h w hkind hsome]
        simp
    · rw [Dispatch_of_mismatch e T h w hkind,
        invocations_of_no_match e T h w (Or.inl hkind)]
      simp

/-- Witness for C3: the matching `Dispatch` returns `true` for a handler that
returns `false`; the `Dispatch` with another kind returns `false`. -/
theorem Dispatch_return_independent_of_handler_witness :
    (declineCounting keyPressed65 0).ret = false ∧
    (EventDispatcher.Dispatch { m_Event := keyPressed65 } KeyPressedEvent declineCounting
      0).ret = true ∧
    (EventDispatcher.Dispatch { m_Event := keyPressed65 } MouseMovedEvent declineCounting
      0).ret = false :=
  ⟨rfl,
   (Dispatch_return_independent_of_handler keyPressed65 KeyPressedEvent declineCounting 0).1
     (by decide) (by decide) false declineCounting rfl,
   (Dispatch_return_independent_of_handler keyPressed65 MouseMovedEvent declineCounting 0).2.1
     (by decide)⟩

/-- C4: `Dispatch` never consults `Handled`.  For an instance of any class with
any payload, the value `Dispatch<T>(h)` returns and the handler invocations it
makes are the same with `Handled == true` before the call as with
`Handled == false`.  And when a first `Dispatch` has left `Handled == true`, a
second `Dispatch<U>` on the same dispatcher whose kind matches still runs its
handler, once, on the event as the first call left it, and returns `true`. -/
theorem Dispatch_does_not_consult_Handled (cls : EventClass P) (p : P) (T : EventClass P)
    (h : EventFn P W) (w : W) :
    ((EventDispatcher.Dispatch
        { m_Event := { cls := cls, data := { Handled := true, payload := p } } } T h w).ret =
     (EventDispatcher.Dispatch
        { m_Event := { cls := cls, data := { Handled := false, payload := p } } } T h w).ret) ∧
    ((invocations { cls := cls, data := { Handled := true, payload := p } } T h w).length =
     (invocations { cls := cls, data := { Handled := false, payload := p } } T h w).length) ∧
    (∀ (e : Event P) (U : EventClass P) (g : EventFn P W),
      (EventDispatcher.Dispatch { m_Event := e } T h w).dispatcher.m_Event.data.Handled = true →
      GetEventType e = GetStaticType U → (dynamic_cast U e).isSome = true →
      ((EventDispatcher.Dispatch { m_Event := e } T h w).dispatcher.Dispatch U g
          (EventDispatcher.Dispatch { m_Event := e } T h w).world).ret = true ∧
      invocations (EventDispatcher.Dispatch { m_Event := e } T h w).dispatcher.m_Event U g
          (EventDispatcher.Dispatch { m_Event := e } T h w).world =
        [(EventDispatcher.Dispatch { m_Event := e } T h w).dispatcher.m_Event]) := by
  refine ⟨?_, ?_, ?_⟩
  · rw [Dispatch_ret_eq, Dispatch_ret_eq]
  · rw [invocations_length, invocations_length, Dispatch_ret_eq, Dispatch_ret_eq]
  · intro e U g _ hkind hcast
    have hcls : (EventDispatcher.Dispatch { m_Event := e } T h w).dispatcher.m_Event.cls
        = e.cls := Dispatch_cls e T h w
    generalize (EventDispatcher.Dispatch { m_Event := e } T h w).world = w1
    generalize (EventDispatcher.Dispatch { m_Event := e } T h w).dispatcher = d1 at hcls ⊢
    obtain ⟨e1⟩ := d1
    have hsame : e1.cls = e.cls := hcls
    have hkind1 : GetEventType e1 = GetStaticType U := by
      simpa [GetEventType, EVENT_CLASS_TYPE, hsame] using hkind
    have hcast1 : (dynamic_cast U e1).isSome = true := by
      simpa [dynamic_cast, hsame] using hcast
    exact ⟨by rw [Dispatch_of_match e1 U g w1 hkind1 hcast1],
      invocations_of_match e1 U g w1 hkind1 hcast1⟩

/-- Witness for C4: the first matching `Dispatch` on the `KeyPressedEvent` sets
`Handled` to `true`; a second one on the same dispatcher still runs its
handler, which observes key code 65 again. -/
theorem Dispatch_does_not_consult_Handled_witness :
    (EventDispatcher.Dispatch { m_Event := keyPressed65 } KeyPressedEvent consumeKey
      []).dispatcher.m_Event.data.Handled = true ∧
    GetEventType keyPressed65 = GetStaticType KeyPressedEvent ∧
    (dynamic_cast KeyPressedEvent keyPressed65).isSome = true ∧
    ((EventDispatcher.Dispatch { m_Event := keyPressed65 } KeyPressedEvent consumeKey
        []).dispatcher.Dispatch KeyPressedEvent consumeKey
        (EventDispatcher.Dispatch { m_Event := keyPressed65 } KeyPressedEvent consumeKey
          []).world).world = [65, 65] ∧
    (((EventDispatcher.Dispatch { m_Event := keyPressed65 } KeyPressedEvent consumeKey
        []).dispatcher.Dispatch KeyPressedEvent consumeKey
        (EventDispatcher.Dispatch { m_Event := keyPressed65 } KeyPressedEvent consumeKey
          []).world).ret = true ∧
     invocations
        (EventDispatcher.Dispatch { m_Event := keyPressed65 } KeyPressedEvent consumeKey
          []).dispatcher.m_Event KeyPressedEvent consumeKey
        (EventDispatcher.Dispatch { m_Event := keyPressed65 } KeyPressedEvent consumeKey
          []).world =
      [(EventDispatcher.Dispatch { m_Event := keyPressed65 } KeyPressedEvent consumeKey
          []).dispatcher.m_Event]) :=
  ⟨by decide, by decide, by decide, by decide,
   (Dispatch_does_not_consult_Handled KeyPressedEvent (.keyCode 65) KeyPressedEvent
      consumeKey []).2.2 keyPressed65 KeyPressedEvent consumeKey
      (by decide) (by decide) (by decide)⟩

/-! ## C5, C6: categories -/

/-- C5: for every event and every category argument, a single enumerator or a
combination, `IsInCategory(c)` is `true` exactly when
`(GetCategoryFlags() & c) != 0`. -/
theorem IsInCategory_iff_land_ne_zero (e : Event P) (c : Int) :
    IsInCategory e c = true ↔ Int.land (GetCategoryFlags e) c ≠ 0 := by
  simp [IsInCategory, intToBool]

/-- The scenario of the window-close event: it is in the application category
and not in the mouse category. -/
theorem windowClose_categories :
    IsInCategory windowClose EventCategory.EventCategoryApplication.val = true ∧
    IsInCategory windowClose EventCategory.EventCategoryMouse.val = false := by
  decide

/-- C6: the five named categories are `BIT(0)` .. `BIT(4)`, that is 1, 2, 4, 8
and 16; each is a power of two, none is negative (and each fits an `int`), and
two different named categories have no bit in common. -/
theorem EventCategory_values :
    (EventCategory.EventCategoryApplication.val = BIT 0 ∧
     EventCategory.EventCategoryInput.val = BIT 1 ∧
     EventCategory.EventCategoryKeyboard.val = BIT 2 ∧
     EventCategory.EventCategoryMouse.val = BIT 3 ∧
     EventCategory.EventCategoryMouseButton.val = BIT 4) ∧
    (EventCategory.EventCategoryApplication.val = 1 ∧
     EventCategory.EventCategoryInput.val = 2 ∧
     EventCategory.EventCategoryKeyboard.val = 4 ∧
     EventCategory.EventCategoryMouse.val = 8 ∧
     EventCategory.EventCategoryMouseButton.val = 16) ∧
    (∀ c ∈ EventCategory.named, ∃ k : Nat, c.val = 2 ^ k) ∧
    (∀ c : EventCategory, 0 ≤ c.val ∧ c.val < 2 ^ 31) ∧
    (∀ a ∈ EventCategory.named, ∀ b ∈ EventCategory.named,
      a ≠ b → Int.land a.val b.val = 0) := by
  refine ⟨by decide, by decide, ?_, ?_, by decide⟩
  · intro c hc
    simp only [EventCategory.named, List.mem_cons, List.mem_singleton,
      List.not_mem_nil, or_false] at hc
    rcases hc with rfl | rfl | rfl | rfl | rfl
    · exact ⟨0, by decide⟩
    · exact ⟨1, by decide⟩
    · exact ⟨2, by decide⟩
    · exact ⟨3, by decide⟩
    · exact ⟨4, by decide⟩
  · intro c
    cases c <;> decide

/-! ## C7: the failed downcast -/

/-- C7: when the bound event carries `T`'s kind tag but is not a `T`, so that
the checked downcast yields the null pointer, `Dispatch<T>(h)` returns `false`,
does not invoke `h` and leaves the event, `Handled` included, unchanged. -/
theorem Dispatch_null_cast_fails_safely (e : Event P) (T : EventClass P)
    (h : EventFn P W) (w : W)
    (hkind : GetEventType e = GetStaticType T)
    (hcast : dynamic_cast T e = none) :
    (EventDispatcher.Dispatch { m_Event := e } T h w).ret = false ∧
    invocations e T h w = [] ∧
    (EventDispatcher.Dispatch { m_Event := e } T h w).dispatcher.m_Event.data.Handled
      = e.data.Handled ∧
    EventDispatcher.Dispatch { m_Event := e } T h w =
      { ret := false, dispatcher := { m_Event := e }, world := w } := by
  have hpath : EventDispatcher.Dispatch { m_Event := e } T h w =
      { ret := false, dispatcher := { m_Event := e }, world := w } := by
    simp [EventDispatcher.Dispatch, hkind, hcast]
  refine ⟨?_, invocations_of_no_match e T h w (Or.inr hcast), ?_, hpath⟩ <;>
  rw [hpath]

/-- Witness for C7: an instance of a class that declares the kind tag
`KeyPressed` without being a `KeyPressedEvent`. -/
theorem Dispatch_null_cast_fails_safely_witness :
    GetEventType lookalike = GetStaticType KeyPressedEvent ∧
    dynamic_cast KeyPressedEvent lookalike = none ∧
    ((EventDispatcher.Dispatch { m_Event := lookalike } KeyPressedEvent consumeKey
        []).ret = false ∧
     invocations lookalike KeyPressedEvent consumeKey [] = [] ∧
     (EventDispatcher.Dispatch { m_Event := lookalike } KeyPressedEvent consumeKey
        []).dispatcher.m_Event.data.Handled = lookalike.data.Handled ∧
     EventDispatcher.Dispatch { m_Event := lookalike } KeyPressedEvent consumeKey [] =
      { ret := false, dispatcher := { m_Event := lookalike }, world := [] }) :=
  ⟨by decide, by simp [dynamic_cast, lookalike, KeyPressedLookalike, KeyPressedEvent],
   Dispatch_null_cast_fails_safely lookalike KeyPressedEvent consumeKey []
     (by decide) (by simp [dynamic_cast, lookalike, KeyPressedLookalike, KeyPressedEvent])⟩

/-! ## C8, C9: the virtuals of a concrete class -/

/-- C8: what `EVENT_CLASS_TYPE(type)` declares returns the tag `type` and its
spelling whatever the instance data, so for a class declared with it every
instance reports `GetEventType() == GetStaticType() == EventType::type` and
`GetName()` is the spelling of that tag; both are the same for every state of
the data members, `Handled` included.  The spellings of the fifteen tags are
the names of the enumerators. -/
theorem EVENT_CLASS_TYPE_reports_its_tag (cls : EventClass P) (d : EventData P) :
    (∀ (type : EventType) (this : EventData P),
      (EVENT_CLASS_TYPE type : EventClassType P).GetStaticType = type ∧
      (EVENT_CLASS_TYPE type : EventClassType P).GetEventType this = type ∧
      (EVENT_CLASS_TYPE type : EventClassType P).GetName this = type.spelling) ∧
    GetEventType { cls := cls, data := d } = GetStaticType cls ∧
    GetStaticType cls = cls.type ∧
    GetName { cls := cls, data := d } = cls.type.spelling ∧
    (∀ d2 : EventData P,
      GetEventType { cls := cls, data := d2 } = GetEventType { cls := cls, data := d } ∧
      GetName { cls := cls, data := d2 } = GetName { cls := cls, data := d }) ∧
    EventType.all.map EventType.spelling =
      ["None", "WindowClose", "WindowResize", "WindowFocus", "WindowLostFocus",
       "WindowMoved", "AppTick", "AppUpdate", "AppRender", "KeyPressed", "KeyReleased",
       "MouseButtonPressed", "MouseButtonReleased", "MouseMoved", "MouseScrolled"] :=
  ⟨fun _ _ => ⟨rfl, rfl, rfl⟩, rfl, rfl, rfl, fun _ => ⟨rfl, rfl⟩, by decide⟩

/-- The name and tag the `KeyPressedEvent` of the scenario reports, before and
after it has been handled. -/
theorem keyPressed65_tag_and_name :
    GetEventType keyPressed65 = EventType.KeyPressed ∧
    GetName keyPressed65 = "KeyPressed" ∧
    GetName (EventDispatcher.Dispatch { m_Event := keyPressed65 } KeyPressedEvent consumeKey
      []).dispatcher.m_Event = "KeyPressed" := by
  decide

/-- C9: for an event whose class does not override `ToString()`, `ToString()`
returns exactly what `GetName()` returns. -/
theorem ToString_eq_GetName_of_no_override (e : Event P)
    (hno : e.cls.toStringOverride = none) : ToString e = GetName e := by
  simp [ToString, hno]

/-- Witness for C9: the window-close event, whose class has no override. -/
theorem ToString_eq_GetName_of_no_override_witness :
    windowClose.cls.toStringOverride = none ∧
    ToString windowClose = GetName windowClose ∧
    ToString windowClose = "WindowClose" :=
  ⟨rfl, ToString_eq_GetName_of_no_override windowClose rfl, by decide⟩

/-! ## C10: the frame of `Dispatch` -/

/-- C10: `Dispatch` writes one data member of the bound event, `Handled`, and
only on a match.  For a handler that does not itself modify the event it is
given, the event after `Dispatch<T>(h)` has the kind tag, name, category
flags, payload and dynamic class it had before and differs from the event
before in `Handled` at most; when the kind tag does not match, the whole event
is as it was and so are the surroundings of `h`. -/
theorem Dispatch_frame (e : Event P) (T : EventClass P) (h : EventFn P W) (w : W)
    (hpure : ∀ (x : Event P) (v : W), (h x v).data = x.data) :
    GetEventType (EventDispatcher.Dispatch { m_Event := e } T h w).dispatcher.m_Event
      = GetEventType e ∧
    GetName (EventDispatcher.Dispatch { m_Event := e } T h w).dispatcher.m_Event
      = GetName e ∧
    GetCategoryFlags (EventDispatcher.Dispatch { m_Event := e } T h w).dispatcher.m_Event
      = GetCategoryFlags e ∧
    (EventDispatcher.Dispatch { m_Event := e } T h w).dispatcher.m_Event.data.payload
      = e.data.payload ∧
    (EventDispatcher.Dispatch { m_Event := e } T h w).dispatcher.m_Event.cls = e.cls ∧
    (EventDispatcher.Dispatch { m_Event := e } T h w).dispatcher.m_Event =
      { cls := e.cls
        data := { e.data with
          Handled := (EventDispatcher.Dispatch { m_Event := e } T h
            w).dispatcher.m_Event.data.Handled } } ∧
    (GetEventType e ≠ GetStaticType T →
      EventDispatcher.Dispatch { m_Event := e } T h w =
        { ret := false, dispatcher := { m_Event := e }, world := w }) := by
  have hcls := Dispatch_cls e T h w
  have hpay : (EventDispatcher.Dispatch { m_Event := e } T h w).dispatcher.m_Event.data.payload
      = e.data.payload := by
    unfold EventDispatcher.Dispatch
    split
    · cases hc : dynamic_cast T e with
      | none => rfl
      | some x =>
        have hx : dynamic_cast T e = some e :=
          dynamic_cast_isSome_eq T e (by simp [hc])
        have hxe : x = e := by
          rw [hc] at hx
          exact Option.some.inj hx
        subst hxe
        simp [hpure]
    · rfl
  refine ⟨?_, ?_, ?_, hpay, hcls, ?_, fun hkind => Dispatch_of_mismatch e T h w hkind⟩
  · simp [GetEventType, EVENT_CLASS_TYPE, hcls]
  · simp [GetName, EVENT_CLASS_TYPE, hcls]
  · simp [GetCategoryFlags, EVENT_CLASS_CATEGORY, hcls]
  · generalize (EventDispatcher.Dispatch { m_Event := e } T h w).dispatcher.m_Event = e1
      at hcls hpay ⊢
    obtain ⟨c1, ⟨b1, p1⟩⟩ := e1
    simp only at hcls hpay
    subst hcls
    subst hpay
    rfl

/-- Witness for C10: the handler `consumeKey` leaves the event it is given as
it is; after the matching `Dispatch` only `Handled` differs. -/
theorem Dispatch_frame_witness :
    (∀ (x : Event Payload) (v : List Int), (consumeKey x v).data = x.data) ∧
    (EventDispatcher.Dispatch { m_Event := keyPressed65 } KeyPressedEvent consumeKey
      []).dispatcher.m_Event.data.Handled = true ∧
    keyPressed65.data.Handled = false ∧
    (EventDispatcher.Dispatch { m_Event := keyPressed65 } KeyPressedEvent consumeKey
      []).dispatcher.m_Event.data.payload = keyPressed65.data.payload :=
  ⟨fun _ _ => rfl, by decide, by decide,
   (Dispatch_frame keyPressed65 KeyPressedEvent consumeKey [] (fun _ _ => rfl)).2.2.2.1⟩

/-! ## Rounds of dispatch attempts -/

/-- A round in which no call names the kind tag of the bound event leaves the
dispatcher and the surroundings of the handlers as they were. -/
theorem dispatchAll_of_no_match (e : Event P) (calls : List (DispatchCall P W)) (w : W)
    (hno : ∀ c ∈ calls, GetStaticType c.T ≠ GetEventType e) :
    dispatchAll { m_Event := e } calls w = ({ m_Event := e }, w) := by
  induction calls with
  | nil => rfl
  | cons c rest ih =>
    have hc : GetEventType e ≠ GetStaticType c.T :=
      fun heq => hno c (List.mem_cons_self c rest) heq.symm
    have hrest : ∀ c2 ∈ rest, GetStaticType c2.T ≠ GetEventType e :=
      fun c2 hmem => hno c2 (List.mem_cons_of_mem c hmem)
    simp only [dispatchAll, Dispatch_of_mismatch e c.T c.func w hc]
    exact ih hrest

/-! ## C11: `Handled` of a fresh event -/

/-- C11: a freshly constructed event has `Handled == false`, and a round of
`Dispatch` calls none of whose type arguments has the kind tag of the event
leaves `Handled == false`: such a round leaves the whole event and the
surroundings of the handlers as they were. -/
theorem fresh_event_stays_unhandled (cls : EventClass P) (p : P)
    (calls : List (DispatchCall P W)) (w : W)
    (hno : ∀ c ∈ calls, GetStaticType c.T ≠ GetEventType (construct cls p)) :
    (construct cls p).data.Handled = false ∧
    (dispatchAll { m_Event := construct cls p } calls w).1.m_Event.data.Handled = false ∧
    dispatchAll { m_Event := construct cls p } calls w
      = ({ m_Event := construct cls p }, w) := by
  refine ⟨rfl, ?_, dispatchAll_of_no_match (construct cls p) calls w hno⟩
  rw [dispatchAll_of_no_match (construct cls p) calls w hno]
  rfl

/-- Witness for C11: a fresh `KeyPressedEvent` offered to a handler for
`MouseMovedEvent` and then to one for `WindowCloseEvent`. -/
theorem fresh_event_stays_unhandled_witness :
    (∀ c ∈ ([{ T := MouseMovedEvent, func := consumeKey },
             { T := WindowCloseEvent, func := markThenDecline }] :
              List (DispatchCall Payload (List Int))),
      GetStaticType c.T ≠ GetEventType (construct KeyPressedEvent (.keyCode 65))) ∧
    ((construct KeyPressedEvent (Payload.keyCode 65)).data.Handled = false ∧
     (dispatchAll { m_Event := construct KeyPressedEvent (.keyCode 65) }
        [{ T := MouseMovedEvent, func := consumeKey },
         { T := WindowCloseEvent, func := markThenDecline }]
        ([] : List Int)).1.m_Event.data.Handled = false ∧
     dispatchAll { m_Event := construct KeyPressedEvent (.keyCode 65) }
        [{ T := MouseMovedEvent, func := consumeKey },
         { T := WindowCloseEvent, func := markThenDecline }] ([] : List Int)
      = ({ m_Event := construct KeyPressedEvent (.keyCode 65) }, [])) :=
  ⟨by
    intro c hc
    simp only [List.mem_cons, List.mem_singleton, List.not_mem_nil, or_false] at hc
    rcases hc with rfl | rfl <;> decide,
   fresh_event_stays_unhandled KeyPressedEvent (.keyCode 65) _ [] (by
    intro c hc
    simp only [List.mem_cons, List.mem_singleton, List.not_mem_nil, or_false] at hc
    rcases hc with rfl | rfl <;> decide)⟩

/-! ## C12: `operator<<` -/

/-- The adjustment `left` puts the fill characters after the text, with the fill
character of the stream, and the insertion resets the field width. -/
theorem operatorInsert_pads_left :
    (operatorInsert
      { handle := 1, written := "", width := 13, fill := '.', adjustLeft := true }
      windowClose).written = "WindowClose.." ∧
    (operatorInsert
      { handle := 1, written := "", width := 13, fill := '.', adjustLeft := true }
      windowClose).width = 0 := by
  decide

/-- An event of a class with a `ToString` override is streamed as the override
describes it, not by its name. -/
theorem operatorInsert_with_override :
    (operatorInsert { handle := 1, written := "" }
      (construct KeyReleasedVerbose (.keyCode 65))).written = "KeyReleased: 65" ∧
    GetName (construct KeyReleasedVerbose (.keyCode 65)) = "KeyReleased" := by
  decide

/-! ## C13: the enumerators of `EventType` -/

/-- C13: `EventType` has fifteen enumerators, `None = 0` and the fourteen kinds
numbered 1 to 14 in declaration order; their values are pairwise distinct, so
no kind has the value of `None`, and for two classes with different kind tags
at most one of `Dispatch<T>(h1)` and `Dispatch<U>(h2)` invokes its handler on a
given event. -/
theorem EventType_enumerators_distinct {W2 : Type} (e : Event P) (T U : EventClass P)
    (h1 : EventFn P W) (h2 : EventFn P W2) (w1 : W) (w2 : W2) :
    EventType.all.length = 15 ∧
    (∀ t : EventType, t ∈ EventType.all) ∧
    EventType.all.map EventType.toNat = List.range 15 ∧
    Function.Injective EventType.toNat ∧
    (∀ t : EventType, t ≠ EventType.None → t.toNat ≠ EventType.None.toNat) ∧
    (GetStaticType T ≠ GetStaticType U →
      invocations e T h1 w1 = [] ∨ invocations e U h2 w2 = []) := by
  refine ⟨rfl, ?_, by decide, ?_, ?_, ?_⟩
  · intro t
    cases t <;> decide
  · intro a b hab
    cases a <;> cases b <;> first | rfl | exact absurd hab (by decide)
  · intro t ht
    cases t <;> first | exact absurd rfl ht | decide
  · intro hTU
    by_cases hT : GetEventType e = GetStaticType T
    · refine Or.inr (invocations_of_no_match e U h2 w2 (Or.inl ?_))
      intro hU
      exact hTU (hT.symm.trans hU)
    · exact Or.inl (invocations_of_no_match e T h1 w1 (Or.inl hT))

/-- Witness for C13: on the `KeyPressedEvent`, of `Dispatch<KeyPressedEvent>` and
`Dispatch<MouseMovedEvent>` only the first invokes its handler. -/
theorem EventType_enumerators_distinct_witness :
    GetStaticType KeyPressedEvent ≠ GetStaticType MouseMovedEvent ∧
    invocations keyPressed65 KeyPressedEvent consumeKey [] = [keyPressed65] ∧
    (invocations keyPressed65 KeyPressedEvent consumeKey [] = [] ∨
     invocations keyPressed65 MouseMovedEvent declineCounting 0 = []) :=
  ⟨by decide, invocations_of_match keyPressed65 KeyPressedEvent consumeKey []
      (by decide) (by decide),
   (EventType_enumerators_distinct keyPressed65 KeyPressedEvent MouseMovedEvent consumeKey
      declineCounting [] 0).2.2.2.2.2 (by decide)⟩

/-! ## C14: `Handled` after a round -/

/-- Whether a kind matches is decided by the dynamic class of the event. -/
theorem kindMatches_of_cls_eq (e1 e : Event P) (T : EventClass P) (hcls : e1.cls = e.cls) :
    kindMatches e1 T = kindMatches e T := by
  simp only [kindMatches, GetEventType, EVENT_CLASS_TYPE, dynamic_cast, hcls]
  by_cases hyes : T.name = e.cls.name ∨ T.name ∈ e.cls.bases <;> simp [hyes]

/-- When the kind matches, `Dispatch` runs the handler and stores its result. -/
theorem Dispatch_of_kindMatches (e : Event P) (T : EventClass P) (func : EventFn P W) (w : W)
    (hm : kindMatches e T = true) :
    EventDispatcher.Dispatch { m_Event := e } T func w =
      { ret := true
        dispatcher :=
          { m_Event :=
              { cls := e.cls
                data := { (func e w).data with Handled := (func e w).ret } } }
        world := (func e w).world } := by
  simp only [kindMatches, Bool.and_eq_true, decide_eq_true_eq] at hm
  exact Dispatch_of_match e T func w hm.1 hm.2

/-- When the kind does not match, `Dispatch` changes nothing. -/
theorem Dispatch_of_not_kindMatches (e : Event P) (T : EventClass P) (func : EventFn P W)
    (w : W) (hm : kindMatches e T = false) :
    EventDispatcher.Dispatch { m_Event := e } T func w =
      { ret := false, dispatcher := { m_Event := e }, world := w } := by
  by_cases hkind : GetEventType e = GetStaticType T
  · cases hcast : dynamic_cast T e with
    | none => exact Dispatch_of_null_cast e T func w hcast
    | some x => simp [kindMatches, hkind, hcast] at hm
  · exact Dispatch_of_mismatch e T func w hkind

/-- A round over two lists of calls is the round over the first followed by the
round over the second. -/
theorem dispatchAll_append (d : EventDispatcher P) (a b : List (DispatchCall P W)) (w : W) :
    dispatchAll d (a ++ b) w = dispatchAll (dispatchAll d a w).1 b (dispatchAll d a w).2 := by
  induction a generalizing d w with
  | nil => rfl
  | cons c rest ih =>
    simp only [List.cons_append, dispatchAll]
    exact ih _ _

/-- The dynamic class of the bound event is the same after a round. -/
theorem dispatchAll_cls (e : Event P) (calls : List (DispatchCall P W)) (w : W) :
    (dispatchAll { m_Event := e } calls w).1.m_Event.cls = e.cls := by
  induction calls generalizing e w with
  | nil => rfl
  | cons c rest ih =>
    simp only [dispatchAll]
    have hstep := Dispatch_cls e c.T c.func w
    generalize (EventDispatcher.Dispatch { m_Event := e } c.T c.func w).dispatcher = d1
      at hstep ⊢
    generalize (EventDispatcher.Dispatch { m_Event := e } c.T c.func w).world = w1
    obtain ⟨e1⟩ := d1
    exact (ih e1 w1).trans hstep

/-- A round none of whose calls matches the kind of the bound event leaves the
dispatcher and the surroundings of the handlers as they were. -/
theorem dispatchAll_of_no_kindMatch (e : Event P) (calls : List (DispatchCall P W)) (w : W)
    (hno : ∀ c ∈ calls, kindMatches e c.T = false) :
    dispatchAll { m_Event := e } calls w = ({ m_Event := e }, w) := by
  induction calls with
  | nil => rfl
  | cons c rest ih =>
    simp only [dispatchAll,
      Dispatch_of_not_kindMatches e c.T c.func w (hno c (List.mem_cons_self c rest))]
    exact ih fun c2 hmem => hno c2 (List.mem_cons_of_mem c hmem)

/-- The last element of a concatenation, with a default. -/
theorem getLast?_getD_append (a b : List Bool) (x : Bool) :
    ((a ++ b).getLast?).getD x = (b.getLast?).getD ((a.getLast?).getD x) := by
  induction b using List.reverseRecOn with
  | nil => simp
  | append_singleton b y _ =>
    rw [← List.append_assoc]
    simp

/-- One `Dispatch` with a handler that records its return value: it does what
the plain `Dispatch` does and records the return value of the handler when the
kind matches. -/
theorem Dispatch_returnTraced (e : Event P) (T : EventClass P) (func : EventFn P W) (w : W)
    (log : List Bool) :
    EventDispatcher.Dispatch { m_Event := e } T (returnTraced func) (w, log) =
      { ret := (EventDispatcher.Dispatch { m_Event := e } T func w).ret
        dispatcher := (EventDispatcher.Dispatch { m_Event := e } T func w).dispatcher
        world := ((EventDispatcher.Dispatch { m_Event := e } T func w).world,
                  log ++ (if kindMatches e T = true then [(func e w).ret] else [])) } := by
  cases hm : kindMatches e T with
  | true =>
    rw [Dispatch_of_kindMatches e T (returnTraced func) (w, log) hm,
      Dispatch_of_kindMatches e T func w hm]
    simp [returnTraced]
  | false =>
    rw [Dispatch_of_not_kindMatches e T (returnTraced func) (w, log) hm,
      Dispatch_of_not_kindMatches e T func w hm]
    simp

/-- A round with handlers that record their return values: it does what the
plain round does, and `Handled` after it is the last value recorded, or what it
was before when nothing was recorded. -/
theorem dispatchAll_returnTraced (e : Event P) (calls : List (DispatchCall P W)) (w : W)
    (log : List Bool) :
    ∃ new : List Bool,
      dispatchAll { m_Event := e }
          (calls.map fun c => { T := c.T, func := returnTraced c.func }) (w, log)
        = ((dispatchAll { m_Event := e } calls w).1,
           ((dispatchAll { m_Event := e } calls w).2, log ++ new)) ∧
      (dispatchAll { m_Event := e } calls w).1.m_Event.data.Handled
        = (new.getLast?).getD e.data.Handled := by
  induction calls generalizing e w log with
  | nil => exact ⟨[], by simp [dispatchAll], by simp [dispatchAll]⟩
  | cons c rest ih =>
    simp only [List.map_cons, dispatchAll, Dispatch_returnTraced]
    have hstep : (EventDispatcher.Dispatch { m_Event := e } c.T c.func
        w).dispatcher.m_Event.data.Handled
        = ((if kindMatches e c.T = true then [(c.func e w).ret] else []).getLast?).getD
            e.data.Handled := by
      cases hm : kindMatches e c.T with
      | true => rw [Dispatch_of_kindMatches e c.T c.func w hm]; simp
      | false => rw [Dispatch_of_not_kindMatches e c.T c.func w hm]; simp
    generalize (if kindMatches e c.T = true then [(c.func e w).ret] else []) = first
      at hstep ⊢
    generalize (EventDispatcher.Dispatch { m_Event := e } c.T c.func w).dispatcher = d1
      at hstep ⊢
    generalize (EventDispatcher.Dispatch { m_Event := e } c.T c.func w).world = w1
    obtain ⟨e1⟩ := d1
    obtain ⟨new2, hrun, hlast⟩ := ih e1 w1 (log ++ first)
    refine ⟨first ++ new2, ?_, ?_⟩
    · rw [hrun, List.append_assoc]
    · rw [hlast, getLast?_getD_append]
      exact congrArg _ hstep

/-- C14: `Handled` is not sticky.  After a round of `Dispatch` calls on one
event, `Handled` is the value returned by the handler of the last call whose
kind matched, as that handler was run on the event and surroundings the calls
before it left; it is its initial value when no call matched.  Equally, it is
the last of the values the invoked handlers returned.  A single matching
`Dispatch` stores the return value of its handler whatever `Handled` was
before and whatever the handler wrote to `Handled` through its reference, so a
handler returning `false` resets a `Handled` that was `true`. -/
theorem Handled_is_return_of_last_matching_call (e : Event P)
    (calls : List (DispatchCall P W)) (w : W) :
    (∀ (pre : List (DispatchCall P W)) (c : DispatchCall P W) (post : List (DispatchCall P W)),
      calls = pre ++ c :: post → kindMatches e c.T = true →
      (∀ c2 ∈ post, kindMatches e c2.T = false) →
      (dispatchAll { m_Event := e } calls w).1.m_Event.data.Handled =
        (c.func (dispatchAll { m_Event := e } pre w).1.m_Event
          (dispatchAll { m_Event := e } pre w).2).ret) ∧
    ((∀ c ∈ calls, kindMatches e c.T = false) →
      (dispatchAll { m_Event := e } calls w).1.m_Event.data.Handled = e.data.Handled) ∧
    (dispatchAll { m_Event := e } calls w).1.m_Event.data.Handled =
      ((handlerReturns e calls w).getLast?).getD e.data.Handled ∧
    (∀ (T : EventClass P) (h : EventFn P W), kindMatches e T = true →
      (EventDispatcher.Dispatch { m_Event := e } T h w).dispatcher.m_Event.data.Handled
        = (h e w).ret) := by
  refine ⟨?_, ?_, ?_, ?_⟩
  · intro pre c post hsplit hm hpost
    subst hsplit
    rw [dispatchAll_append]
    have hcls := dispatchAll_cls e pre w
    generalize (dispatchAll { m_Event := e } pre w).2 = w1
    generalize (dispatchAll { m_Event := e } pre w).1 = d1 at hcls ⊢
    obtain ⟨e1⟩ := d1
    have hcls1 : e1.cls = e.cls := hcls
    have hm1 : kindMatches e1 c.T = true := by
      rw [kindMatches_of_cls_eq e1 e c.T hcls1]
      exact hm
    simp only [dispatchAll, Dispatch_of_kindMatches e1 c.T c.func w1 hm1]
    rw [dispatchAll_of_no_kindMatch]
    intro c2 hmem
    refine (kindMatches_of_cls_eq _ e c2.T ?_).trans (hpost c2 hmem)
    exact hcls1
  · intro hno
    rw [dispatchAll_of_no_kindMatch e calls w hno]
  · obtain ⟨new, hrun, hlast⟩ := dispatchAll_returnTraced e calls w []
    have hlog : handlerReturns e calls w = new := by
      simp [handlerReturns, hrun]
    rw [hlog]
    exact hlast
  · intro T h hm
    rw [Dispatch_of_kindMatches e T h w hm]

/-- Witness for C14: on the `KeyPressedEvent`, a handler returning `true`, then a
call for another kind, then a handler that writes `Handled = true` and returns
`false`: `Handled` is `true` after the first call and `false` after the
round. -/
theorem Handled_is_return_of_last_matching_call_witness :
    kindMatches keyPressed65 KeyPressedEvent = true ∧
    kindMatches keyPressed65 MouseMovedEvent = false ∧
    (dispatchAll { m_Event := keyPressed65 }
      [{ T := KeyPressedEvent, func := consumeKey }] ([] : List Int)).1.m_Event.data.Handled
      = true ∧
    (markThenDecline keyPressed65 [65]).data.Handled = true ∧
    (markThenDecline keyPressed65 [65]).ret = false ∧
    handlerReturns keyPressed65
      [{ T := KeyPressedEvent, func := consumeKey },
       { T := MouseMovedEvent, func := consumeKey },
       { T := KeyPressedEvent, func := markThenDecline }] ([] : List Int) = [true, false] ∧
    (dispatchAll { m_Event := keyPressed65 }
      [{ T := KeyPressedEvent, func := consumeKey },
       { T := MouseMovedEvent, func := consumeKey },
       { T := KeyPressedEvent, func := markThenDecline }]
      ([] : List Int)).1.m_Event.data.Handled = false ∧
    (dispatchAll { m_Event := keyPressed65 }
      [{ T := KeyPressedEvent, func := consumeKey },
       { T := MouseMovedEvent, func := consumeKey },
       { T := KeyPressedEvent, func := markThenDecline }]
      ([] : List Int)).1.m_Event.data.Handled =
      (markThenDecline
        (dispatchAll { m_Event := keyPressed65 }
          [{ T := KeyPressedEvent, func := consumeKey },
           { T := MouseMovedEvent, func := consumeKey }] ([] : List Int)).1.m_Event
        (dispatchAll { m_Event := keyPressed65 }
          [{ T := KeyPressedEvent, func := consumeKey },
           { T := MouseMovedEvent, func := consumeKey }] ([] : List Int)).2).ret :=
  ⟨by decide, by decide, by decide, by decide, by decide, by decide, by decide,
   (Handled_is_return_of_last_matching_call keyPressed65
      [{ T := KeyPressedEvent, func := consumeKey },
       { T := MouseMovedEvent, func := consumeKey },
       { T := KeyPressedEvent, func := markThenDecline }] ([] : List Int)).1
      [{ T := KeyPressedEvent, func := consumeKey },
       { T := MouseMovedEvent, func := consumeKey }]
      { T := KeyPressedEvent, func := markThenDecline } [] rfl (by decide)
      (by intro c2 hmem; cases hmem)⟩

/-! ## C15, C16: combined masks and the category `None` -/

/-- An integer is non-zero exactly when one of its bits is set. -/
theorem int_ne_zero_iff_exists_testBit (n : Int) :
    n ≠ 0 ↔ ∃ k, Int.testBit n k = true := by
  constructor
  · intro hn
    cases n with
    | ofNat m =>
      have hm : m ≠ 0 := by
        intro h0
        exact hn (by simp [h0])
      obtain ⟨i, hi⟩ := Nat.ne_zero_implies_bit_true hm
      exact ⟨i, by simpa [Int.testBit] using hi⟩
    | negSucc m =>
      refine ⟨m, ?_⟩
      have hlt : m < 2 ^ m := Nat.lt_two_pow m
      simp [Int.testBit, Nat.testBit_lt_two_pow hlt]
  · rintro ⟨k, hk⟩ h0
    subst h0
    simp [Int.testBit] at hk

/-- A mask meets the bitwise OR of two masks exactly when it meets one of
them. -/
theorem int_land_lor_ne_zero (x a b : Int) :
    Int.land x (Int.lor a b) ≠ 0 ↔ (Int.land x a ≠ 0 ∨ Int.land x b ≠ 0) := by
  simp only [int_ne_zero_iff_exists_testBit, Int.testBit_land, Int.testBit_lor]
  constructor
  · rintro ⟨k, hk⟩
    cases hx : Int.testBit x k <;> cases ha : Int.testBit a k <;>
      cases hb : Int.testBit b k <;> simp [hx, ha, hb] at hk
    · exact Or.inr ⟨k, by simp [hx, hb]⟩
    · exact Or.inl ⟨k, by simp [hx, ha]⟩
    · exact Or.inl ⟨k, by simp [hx, ha]⟩
  · rintro (⟨k, hk⟩ | ⟨k, hk⟩) <;> refine ⟨k, ?_⟩ <;>
      cases hx : Int.testBit x k <;> simp [hx] at hk ⊢ <;> simp [hk]

/-- The bitwise AND with 0 is 0. -/
theorem int_land_zero (x : Int) : Int.land x 0 = 0 := by
  by_contra hne
  obtain ⟨k, hk⟩ := (int_ne_zero_iff_exists_testBit _).1 hne
  rw [Int.testBit_land] at hk
  simp [Int.testBit] at hk

/-- C15: `IsInCategory` distributes over the combination of masks: for every
event and all masks `a` and `b`, `IsInCategory(a | b)` is
`IsInCategory(a) || IsInCategory(b)`; a combined mask tests membership in any
of the combined categories, not in all of them. -/
theorem IsInCategory_lor (e : Event P) (a b : Int) :
    IsInCategory e (Int.lor a b) = (IsInCategory e a || IsInCategory e b) := by
  rw [Bool.eq_iff_iff]
  simp only [Bool.or_eq_true, IsInCategory, intToBool, bne_iff_ne]
  exact int_land_lor_ne_zero (GetCategoryFlags e) a b

/-- The window-close event is in the combination of the application and the
mouse category though it is not in the mouse category. -/
theorem windowClose_in_combined_mask :
    IsInCategory windowClose
      (Int.lor EventCategory.EventCategoryApplication.val
        EventCategory.EventCategoryMouse.val) = true ∧
    IsInCategory windowClose EventCategory.EventCategoryMouse.val = false := by
  decide

/-- C16: the enumerator `None` of `EventCategory` has the value 0, and no event,
whatever its category flags, is in the category `None`. -/
theorem IsInCategory_None (e : Event P) :
    EventCategory.None.val = 0 ∧ IsInCategory e EventCategory.None.val = false := by
  refine ⟨rfl, ?_⟩
  show intToBool (Int.land (GetCategoryFlags e) 0) = false
  rw [int_land_zero]
  rfl

end Hazel
